import Mathlib

/-!
Verification of the data-reduction and model-fitting core of the gammapy
tutorial workflow: per-observation dataset stacking, safe-mask combination,
field-of-view background normalization, and the fit engine (statistic,
optimizer backends, profiles and contours).  The library code called by the
tutorials (`MapDataset.stack`, `SafeMaskMaker.run`, `FoVBackgroundMaker.run`,
`Fit.run`, `Fit.stat_profile`, `Fit.minos_contour`) is not part of the
repository sources, so each component is modelled from the specification and
the properties are proved against those models.
-/

/- ## Stacker: per-bin accumulation of one observation dataset into a target -/

/-- One bin of a binned map dataset: the aligned per-bin entries of the
counts, background, exposure and response (effective area, energy
dispersion) arrays. -/
@[ext]
structure StackBin where
  counts : ℚ
  background : ℚ
  exposure : ℚ
  aeff : ℚ
  edisp : ℚ
deriving DecidableEq

/-- Modelled from the spec: the response-combination rule of `Stacker.stack`
(gammapy `MapDataset.stack`, absent from the repository sources — only its
caller in `analysis_2.ipynb` is present).  A response value carried with
accumulated exposure `ePrior` absorbs a contribution `rContrib` carrying
exposure `eContrib` as the exposure-weighted average; a bin whose total
accumulated exposure is zero retains its prior response value instead of
dividing by zero. -/
def respStack (ePrior rPrior eContrib rContrib : ℚ) : ℚ :=
  if ePrior + eContrib = 0 then rPrior
  else (rPrior * ePrior + rContrib * eContrib) / (ePrior + eContrib)

/-- Modelled from the spec: the per-bin accumulation rule of `Stacker.stack`
(gammapy `MapDataset.stack`): counts, background and exposure add; the
response entries are combined by exposure-weighted averaging, the prior
response being weighted by the exposure already accumulated in the target. -/
def stackBin (t c : StackBin) : StackBin where
  counts := t.counts + c.counts
  background := t.background + c.background
  exposure := t.exposure + c.exposure
  aeff := respStack t.exposure t.aeff c.exposure c.aeff
  edisp := respStack t.exposure t.edisp c.exposure c.edisp

/-- A binned map dataset over a geometry with `n` bins; a contribution whose
footprint only partially overlaps the target is represented with all-zero
bins outside its footprint. -/
def MapData (n : ℕ) : Type := Fin n → StackBin

/-- Modelled from the spec: `Stacker.stack` (gammapy `MapDataset.stack`)
applied to whole datasets, accumulating bin by bin. -/
def stackData {n : ℕ} (t c : MapData n) : MapData n :=
  fun i => stackBin (t i) (c i)

theorem respStack_zero_contrib (e0 r0 r : ℚ) : respStack e0 r0 0 r = r0 := by
  unfold respStack
  by_cases h : e0 + 0 = 0
  · simp [h]
  · rw [if_neg h]
    have he : e0 ≠ 0 := by simpa using h
    field_simp

/-- Two successive exposure-weighted response accumulations commute, as long
as all exposures are non-negative (as physical exposures are). -/
theorem respStack_swap (e0 r0 e1 r1 e2 r2 : ℚ)
    (h0 : 0 ≤ e0) (h1 : 0 ≤ e1) (h2 : 0 ≤ e2) :
    respStack (e0 + e1) (respStack e0 r0 e1 r1) e2 r2 =
      respStack (e0 + e2) (respStack e0 r0 e2 r2) e1 r1 := by
  unfold respStack
  by_cases hC : e0 + e1 = 0
  · have he0 : e0 = 0 := by linarith
    have he1 : e1 = 0 := by linarith
    by_cases hD : e0 + e2 = 0
    · have hA : e0 + e1 + e2 = 0 := by linarith
      have hB : e0 + e2 + e1 = 0 := by linarith
      simp only [if_pos hC, if_pos hD, if_pos hA, if_pos hB]
    · have hA : ¬ e0 + e1 + e2 = 0 := fun h => hD (by linarith)
      have hB : ¬ e0 + e2 + e1 = 0 := fun h => hD (by linarith)
      have he2 : e2 ≠ 0 := fun h => hD (by rw [he0, h, add_zero])
      simp only [if_pos hC, if_neg hD, if_neg hA, if_neg hB]
      rw [he0, he1]
      simp only [zero_add, add_zero, mul_zero, zero_mul]
      field_simp
  · by_cases hD : e0 + e2 = 0
    · have he0 : e0 = 0 := by linarith
      have he2 : e2 = 0 := by linarith
      have hA : ¬ e0 + e1 + e2 = 0 := fun h => hC (by linarith)
      have hB : ¬ e0 + e2 + e1 = 0 := fun h => hC (by linarith)
      have he1 : e1 ≠ 0 := fun h => hC (by rw [he0, h, add_zero])
      simp only [if_neg hC, if_pos hD, if_neg hA, if_neg hB]
      rw [he0, he2]
      simp only [zero_add, add_zero, mul_zero, zero_mul]
      field_simp
    · by_cases hA : e0 + e1 + e2 = 0
      · exact absurd (show e0 + e1 = 0 by linarith) hC
      · have hB : ¬ e0 + e2 + e1 = 0 := fun h => hA (by linarith)
        simp only [if_neg hC, if_neg hD, if_neg hA, if_neg hB]
        field_simp
        ring

/-- Stacking two contribution bins into a target bin is order-independent for
non-negative exposures: counts, background and exposure add commutatively,
and the exposure-weighted response average is symmetric in the contributions. -/
theorem stackBin_comm (t c1 c2 : StackBin)
    (ht : 0 ≤ t.exposure) (h1 : 0 ≤ c1.exposure) (h2 : 0 ≤ c2.exposure) :
    stackBin (stackBin t c1) c2 = stackBin (stackBin t c2) c1 := by
  unfold stackBin
  ext
  · show t.counts + c1.counts + c2.counts = t.counts + c2.counts + c1.counts
    ring
  · show t.background + c1.background + c2.background
      = t.background + c2.background + c1.background
    ring
  · show t.exposure + c1.exposure + c2.exposure
      = t.exposure + c2.exposure + c1.exposure
    ring
  · exact respStack_swap t.exposure t.aeff c1.exposure c1.aeff
      c2.exposure c2.aeff ht h1 h2
  · exact respStack_swap t.exposure t.edisp c1.exposure c1.edisp
      c2.exposure c2.edisp ht h1 h2

/-- Accumulating two contributions into an initially empty (zero-exposure)
bin produces the exposure-weighted average of the two responses. -/
theorem respStack_from_empty (r0 e1 r1 e2 r2 : ℚ) (h : e1 + e2 ≠ 0) :
    respStack (0 + e1) (respStack 0 r0 e1 r1) e2 r2
      = (r1 * e1 + r2 * e2) / (e1 + e2) := by
  by_cases he1 : e1 = 0
  · subst he1
    have he2 : e2 ≠ 0 := by simpa using h
    unfold respStack
    simp [he2]
  · have h01 : (0 : ℚ) + e1 ≠ 0 := by simpa using he1
    have hS : (0 : ℚ) + e1 + e2 ≠ 0 := by simpa using h
    unfold respStack
    rw [if_neg h01, if_neg hS]
    field_simp

/-- C1: stacking a contribution dataset into a target combines the response
entries (effective area, energy dispersion) of every overlapping bin as
exposure-weighted averages: starting from an empty target bin, two
contributions with exposures `e1`, `e2` and responses `r1`, `r2` yield
`(r1*e1 + r2*e2)/(e1+e2)`; and a bin whose total accumulated exposure is
zero retains its prior response value, with no division by zero. -/
theorem stack_response_weighted_average (t c1 c2 : StackBin)
    (ht : t.exposure = 0) :
    (c1.exposure + c2.exposure ≠ 0 →
        (stackBin (stackBin t c1) c2).aeff
            = (c1.aeff * c1.exposure + c2.aeff * c2.exposure)
                / (c1.exposure + c2.exposure)
          ∧ (stackBin (stackBin t c1) c2).edisp
            = (c1.edisp * c1.exposure + c2.edisp * c2.exposure)
                / (c1.exposure + c2.exposure))
      ∧ (c1.exposure = 0 → c2.exposure = 0 →
        (stackBin (stackBin t c1) c2).aeff = t.aeff
          ∧ (stackBin (stackBin t c1) c2).edisp = t.edisp) := by
  constructor
  · intro hsum
    constructor
    · show respStack (t.exposure + c1.exposure)
        (respStack t.exposure t.aeff c1.exposure c1.aeff) c2.exposure c2.aeff = _
      rw [ht]
      exact respStack_from_empty t.aeff c1.exposure c1.aeff
        c2.exposure c2.aeff hsum
    · show respStack (t.exposure + c1.exposure)
        (respStack t.exposure t.edisp c1.exposure c1.edisp) c2.exposure c2.edisp = _
      rw [ht]
      exact respStack_from_empty t.edisp c1.exposure c1.edisp
        c2.exposure c2.edisp hsum
  · intro h1 h2
    constructor
    · show respStack (t.exposure + c1.exposure)
        (respStack t.exposure t.aeff c1.exposure c1.aeff) c2.exposure c2.aeff = _
      rw [ht, h1, h2]
      simp [respStack]
    · show respStack (t.exposure + c1.exposure)
        (respStack t.exposure t.edisp c1.exposure c1.edisp) c2.exposure c2.edisp = _
      rw [ht, h1, h2]
      simp [respStack]

/-- An empty target bin: all-zero entries, as produced by
`MapDataset.create`. -/
def emptyBin : StackBin := ⟨0, 0, 0, 0, 0⟩

/-- Example contribution bin: 10 counts, background 1, exposure 2,
effective area 6, energy dispersion 8. -/
def contribBinA : StackBin := ⟨10, 1, 2, 6, 8⟩

/-- Example contribution bin: 5 counts, background 2, exposure 1,
effective area 3, energy dispersion 2. -/
def contribBinB : StackBin := ⟨5, 2, 1, 3, 2⟩

theorem contrib_exposure_sum_ne :
    contribBinA.exposure + contribBinB.exposure ≠ 0 := by
  norm_num [contribBinA, contribBinB]

/-- Witness for C1 at concrete bins: exposures 2 and 1, responses (6, 8) and
(3, 2), stacked into an empty target bin. -/
theorem stack_response_weighted_average_witness :
    (stackBin (stackBin emptyBin contribBinA) contribBinB).aeff
        = (contribBinA.aeff * contribBinA.exposure
            + contribBinB.aeff * contribBinB.exposure)
            / (contribBinA.exposure + contribBinB.exposure)
      ∧ (stackBin (stackBin emptyBin contribBinA) contribBinB).edisp
        = (contribBinA.edisp * contribBinA.exposure
            + contribBinB.edisp * contribBinB.exposure)
            / (contribBinA.exposure + contribBinB.exposure) :=
  (stack_response_weighted_average emptyBin contribBinA contribBinB rfl).1
    contrib_exposure_sum_ne

/-- C2: sequential accumulation via `stack` is order-independent — stacking
contribution `a` then `b` into a target yields the same arrays (counts,
background, exposure, responses) as stacking `b` then `a`, for any
contributions with non-negative exposures (bins outside a contribution's
footprint are all-zero). -/
theorem stack_order_independent {n : ℕ} (t a b : MapData n)
    (ht : ∀ i, 0 ≤ (t i).exposure) (ha : ∀ i, 0 ≤ (a i).exposure)
    (hb : ∀ i, 0 ≤ (b i).exposure) :
    stackData (stackData t a) b = stackData (stackData t b) a := by
  funext i
  exact stackBin_comm (t i) (a i) (b i) (ht i) (ha i) (hb i)

/-- Example empty target dataset on a two-bin geometry. -/
def targetMap : MapData 2 := fun _ => emptyBin

/-- Example contribution covering only the first bin (partial footprint). -/
def contribMapA : MapData 2 := fun i => if i = 0 then ⟨3, 1, 2, 5, 7⟩ else emptyBin

/-- Example contribution covering both bins. -/
def contribMapB : MapData 2 :=
  fun i => if i = 0 then ⟨4, 2, 1, 2, 3⟩ else ⟨1, 1, 3, 4, 2⟩

/-- Witness for C2 at concrete two-bin datasets with partially overlapping
footprints. -/
theorem stack_order_independent_witness :
    stackData (stackData targetMap contribMapA) contribMapB
      = stackData (stackData targetMap contribMapB) contribMapA :=
  stack_order_independent targetMap contribMapA contribMapB
    (by decide) (by decide) (by decide)

/- ## Fit statistic: per-bin Poisson/Cash deviance with clamping -/

/-- Modelled from the spec: the small positive truncation constant used to
clamp predicted counts away from zero in the statistic formula (the Fit
engine behind `fit.run` is not in the repository sources, only its callers
in `modeling.ipynb` and `analysis_2.ipynb`). -/
def TRUNCATION_VALUE : ℚ := 1 / 10 ^ 25

/-- A logarithm is only finite on positive arguments; applying an abstract
logarithm `f` (given on positive rationals) to a non-positive argument
yields `none`, modelling a non-finite statistic term. -/
def safeLog (f : {x : ℚ // 0 < x} → ℚ) (x : ℚ) : Option ℚ :=
  if h : 0 < x then some (f ⟨x, h⟩) else none

/-- Modelled from the spec: the per-bin Poisson/Cash deviance
`2·(predicted − counts·ln(predicted))` evaluated by the Fit engine, with
`predicted` clamped to at least `TRUNCATION_VALUE` before the logarithm is
taken.  `none` stands for a non-finite term. -/
def cashBin (f : {x : ℚ // 0 < x} → ℚ) (counts predicted : ℚ) : Option ℚ :=
  (safeLog f (max predicted TRUNCATION_VALUE)).map
    fun l => 2 * (max predicted TRUNCATION_VALUE - counts * l)

/-- The same deviance without the clamp: its logarithm argument is the raw
predicted value, so the term is non-finite at `predicted = 0`. -/
def cashBinUnclamped (f : {x : ℚ // 0 < x} → ℚ) (counts predicted : ℚ) : Option ℚ :=
  (safeLog f predicted).map fun l => 2 * (predicted - counts * l)

/-- C3: every per-bin term of the fit statistic is finite for every counts
and predicted value — in particular at `predicted = 0` with `counts = 0`,
where the clamped term evaluates to `2·TRUNCATION_VALUE` — because the
clamp keeps the logarithm argument positive; without the clamp the same
bin's term is non-finite, so the guard is the clamp, not bin dropping. -/
theorem cash_statistic_finite (f : {x : ℚ // 0 < x} → ℚ) :
    (∀ counts predicted : ℚ, (cashBin f counts predicted).isSome = true)
      ∧ cashBin f 0 0 = some (2 * TRUNCATION_VALUE)
      ∧ cashBinUnclamped f 0 0 = none := by
  have htrunc : (0 : ℚ) < TRUNCATION_VALUE := by norm_num [TRUNCATION_VALUE]
  refine ⟨?_, ?_, ?_⟩
  · intro c p
    have hpos : 0 < max p TRUNCATION_VALUE :=
      lt_of_lt_of_le htrunc (le_max_right _ _)
    simp [cashBin, safeLog, hpos]
  · have hm : max (0 : ℚ) TRUNCATION_VALUE = TRUNCATION_VALUE :=
      max_eq_right (le_of_lt htrunc)
    simp [cashBin, safeLog, hm, htrunc]
  · simp [cashBinUnclamped, safeLog]

/- ## Minimum of a list of statistic values -/

/-- Smallest value of a list of statistic values, `none` for the empty
list. -/
def listMin : List ℚ → Option ℚ
  | [] => none
  | x :: xs => some (xs.foldl min x)

theorem foldl_min_le_init (l : List ℚ) (a : ℚ) : l.foldl min a ≤ a := by
  induction l generalizing a with
  | nil => simp
  | cons x xs ih =>
    simp only [List.foldl]
    exact le_trans (ih (min a x)) (min_le_left a x)

theorem foldl_min_le_mem :
    ∀ (l : List ℚ) (x : ℚ), x ∈ l → ∀ a : ℚ, l.foldl min a ≤ x := by
  intro l
  induction l with
  | nil =>
    intro x hx
    cases hx
  | cons y ys ih =>
    intro x hx a
    simp only [List.foldl]
    rcases List.mem_cons.mp hx with h | h
    · subst h
      exact le_trans (foldl_min_le_init ys (min a x)) (min_le_right a x)
    · exact ih x h (min a y)

theorem foldl_min_mem (l : List ℚ) (a : ℚ) :
    l.foldl min a = a ∨ l.foldl min a ∈ l := by
  induction l generalizing a with
  | nil =>
    left
    rfl
  | cons y ys ih =>
    simp only [List.foldl]
    rcases ih (min a y) with h | h
    · rcases le_total a y with hay | hya
      · left
        rw [h, min_eq_left hay]
      · right
        rw [h, min_eq_right hya]
        exact List.mem_cons_self y ys
    · right
      exact List.mem_cons_of_mem y h

theorem listMin_le {l : List ℚ} {m x : ℚ}
    (hm : listMin l = some m) (hx : x ∈ l) : m ≤ x := by
  cases l with
  | nil => cases hx
  | cons y ys =>
    simp only [listMin, Option.some.injEq] at hm
    subst hm
    rcases List.mem_cons.mp hx with h | h
    · subst h
      exact foldl_min_le_init ys x
    · exact foldl_min_le_mem ys x h y

theorem listMin_mem {l : List ℚ} {m : ℚ} (hm : listMin l = some m) : m ∈ l := by
  cases l with
  | nil => simp [listMin] at hm
  | cons y ys =>
    simp only [listMin, Option.some.injEq] at hm
    subst hm
    rcases foldl_min_mem ys y with h | h
    · rw [h]
      exact List.mem_cons_self y ys
    · exact List.mem_cons_of_mem y h

theorem listMin_eq_none {l : List ℚ} : listMin l = none ↔ l = [] := by
  cases l <;> simp [listMin]

theorem listMin_perm {l1 l2 : List ℚ} (p : l1.Perm l2) :
    listMin l1 = listMin l2 := by
  cases h1 : listMin l1 with
  | none =>
    have h1' : l1 = [] := listMin_eq_none.mp h1
    subst h1'
    have h2' : l2 = [] := p.symm.eq_nil
    subst h2'
    rfl
  | some m =>
    cases h2 : listMin l2 with
    | none =>
      have h2' : l2 = [] := listMin_eq_none.mp h2
      subst h2'
      have h1' : l1 = [] := p.eq_nil
      subst h1'
      simp [listMin] at h1
    | some m2 =>
      have h12 : m ≤ m2 := listMin_le h1 (p.mem_iff.mpr (listMin_mem h2))
      have h21 : m2 ≤ m := listMin_le h2 (p.mem_iff.mp (listMin_mem h1))
      rw [le_antisymm h12 h21]

/- ## Fit engine: pluggable optimizer backends over one shared objective -/

/-- The three interchangeable optimizer backends selectable in
`fit.run(backend=...)`. -/
inductive Backend
  | scipy
  | sherpa
  | minuit
deriving DecidableEq

/-- One dataset as seen by the fit engine: observed counts, the fit mask and
the predicted counts (attached models evaluated at a parameter vector plus
background) per bin. -/
structure FitDataset where
  nbins : ℕ
  counts : Fin nbins → ℚ
  mask : Fin nbins → Bool
  predicted : List ℚ → Fin nbins → ℚ

/-- Modelled from the spec: the per-dataset statistic term — the per-bin
statistic summed over the unmasked bins only (masked bins are excluded from
the sum, not zero-weighted). -/
def datasetStat (statBin : ℚ → ℚ → ℚ) (d : FitDataset) (p : List ℚ) : ℚ :=
  (((List.finRange d.nbins).filter fun i => d.mask i).map
    fun i => statBin (d.counts i) (d.predicted p i)).sum

/-- A fit problem: the per-bin statistic, the ordered list of datasets, the
finite set of parameter vectors examined by the optimizer search, and the
Hessian-derived matrix available at the minimum to backends that compute
it. -/
structure FitProblem where
  statBin : ℚ → ℚ → ℚ
  datasets : List FitDataset
  candidates : List (List ℚ)
  hessianAtMin : List (List ℚ)

/-- Modelled from the spec: the joint objective
`total_stat = Σ_d Σ_{unmasked bins} stat(counts, predicted)`, the single
statistic shared by every backend. -/
def totalStat (F : FitProblem) (p : List ℚ) : ℚ :=
  (F.datasets.map fun d => datasetStat F.statBin d p).sum

/-- Modelled from the spec: each backend is only a search strategy — it
visits the same candidate parameter vectors, in a backend-specific order. -/
def backendSearch (b : Backend) (cands : List (List ℚ)) : List (List ℚ) :=
  match b with
  | .scipy => cands
  | .sherpa => cands.reverse
  | .minuit => cands.rotate 1

/-- Whether a backend computes or approximates the Hessian at the minimum
(only the dedicated minimizer, minuit, does). -/
def computesHessian : Backend → Bool
  | .minuit => true
  | _ => false

/-- Outcome of one `fit.run(backend, options)` call: the minimized statistic
value and, when the backend computes a Hessian, the covariance matrix. -/
structure FitRunResult where
  stat : Option ℚ
  covariance : Option (List (List ℚ))

/-- Modelled from the spec: `FitEngine.run(optimizerChoice, options)` —
delegates minimization of `totalStat` to the chosen backend's search
strategy; only a Hessian-computing backend produces a covariance matrix. -/
def runFitEngine (b : Backend) (F : FitProblem) : FitRunResult where
  stat := listMin ((backendSearch b F.candidates).map (totalStat F))
  covariance := if computesHessian b then some F.hessianAtMin else none

/-- C4: every backend minimizes the same total statistic — the sum over
datasets and unmasked bins of the per-bin statistic — over the same
candidate set, so the minimized statistic value is identical for every
choice of backend; the backend changes only the search order and whether a
covariance matrix is produced. -/
theorem run_backend_same_objective (F : FitProblem) (b : Backend) :
    (runFitEngine b F).stat = listMin (F.candidates.map (totalStat F))
      ∧ ∀ b' : Backend, (runFitEngine b F).stat = (runFitEngine b' F).stat := by
  have key : ∀ c : Backend,
      (runFitEngine c F).stat = listMin (F.candidates.map (totalStat F)) := by
    intro c
    cases c with
    | scipy => rfl
    | sherpa =>
      exact listMin_perm ((F.candidates.reverse_perm).map (totalStat F))
    | minuit =>
      exact listMin_perm ((F.candidates.rotate_perm 1).map (totalStat F))
  exact ⟨key b, fun b' => (key b).trans (key b').symm⟩

/-- C7: the covariance matrix is available from a completed fit if and only
if the backend computes or approximates the Hessian at the minimum, which
is exactly the minuit backend; the scipy and sherpa backends report no
covariance matrix. -/
theorem covariance_iff_hessian_backend (F : FitProblem) (b : Backend) :
    (((runFitEngine b F).covariance).isSome = true ↔ b = Backend.minuit)
      ∧ (runFitEngine Backend.scipy F).covariance = none
      ∧ (runFitEngine Backend.sherpa F).covariance = none := by
  refine ⟨?_, rfl, rfl⟩
  cases b <;> simp [runFitEngine, computesHessian]

/- ## QualityMasker: safe-mask evaluation and combination -/

/-- A dataset as seen by the quality masker: only its fit mask matters
here. -/
structure MaskedDataset (n : ℕ) where
  mask_fit : Fin n → Bool

/-- The conjunction of a list of validity predicates, evaluated per bin. -/
def combinePredicates {n : ℕ} (preds : List (Fin n → Bool)) : Fin n → Bool :=
  fun i => preds.foldr (fun p acc => p i && acc) true

/-- Modelled from the spec: `QualityMasker.apply` (gammapy
`SafeMaskMaker.run`, absent from the repository sources — only its caller
in `analysis_2.ipynb` is present): evaluates the configured validity
predicates, combines them with logical AND, and writes the result into the
dataset's fit mask ANDed with any pre-existing mask. -/
def safeMaskRun {n : ℕ} (preds : List (Fin n → Bool))
    (ds : MaskedDataset n) : MaskedDataset n :=
  { mask_fit := fun i => combinePredicates preds i && ds.mask_fit i }

/-- C5: the fit mask produced by the quality masker is the logical AND of
the newly evaluated validity predicates with the pre-existing mask, so no
previously excluded bin ever becomes included; applying the masker twice,
first with a stricter and then with a looser predicate, yields the
stricter (intersection) mask. -/
theorem safe_mask_never_relaxes {n : ℕ} (preds : List (Fin n → Bool))
    (ds : MaskedDataset n) :
    (∀ i, (safeMaskRun preds ds).mask_fit i
        = (combinePredicates preds i && ds.mask_fit i))
      ∧ (∀ i, (safeMaskRun preds ds).mask_fit i = true → ds.mask_fit i = true)
      ∧ ∀ pStrict pLoose : Fin n → Bool,
          (∀ i, pStrict i = true → pLoose i = true) →
          ∀ i, (safeMaskRun [pLoose] (safeMaskRun [pStrict] ds)).mask_fit i
            = (pStrict i && ds.mask_fit i) := by
  refine ⟨fun i => rfl, ?_, ?_⟩
  · intro i h
    exact ((Bool.and_eq_true _ _).mp h).2
  · intro pStrict pLoose himp i
    simp only [safeMaskRun, combinePredicates, List.foldr]
    cases hS : pStrict i with
    | false => simp
    | true =>
      rw [himp i hS]
      simp

/-- Example two-bin dataset with an all-true pre-existing fit mask. -/
def maskDsEx : MaskedDataset 2 := ⟨fun _ => true⟩

/-- Example stricter validity predicate: only the first bin is valid. -/
def predStrict : Fin 2 → Bool := fun i => i = 0

/-- Example looser validity predicate: every bin is valid. -/
def predLoose : Fin 2 → Bool := fun _ => true

/-- Witness for C5: applying the stricter and then the looser predicate to a
concrete two-bin dataset yields the stricter intersection mask. -/
theorem safe_mask_never_relaxes_witness :
    (safeMaskRun [predLoose] (safeMaskRun [predStrict] maskDsEx)).mask_fit 0
      = (predStrict 0 && maskDsEx.mask_fit 0) :=
  (safe_mask_never_relaxes [predStrict] maskDsEx).2.2 predStrict predLoose
    (by decide) 0

/- ## BackgroundNormalizer: field-of-view background fit -/

/-- Error taxonomy of the makers: too few valid bins for a background
fit. -/
inductive MakerError
  | insufficientData
deriving DecidableEq

/-- A dataset as seen by the background normalizer: counts and background
arrays, the current fit mask, the exclusion mask (`true` outside the
excluded source regions, where the background may be fitted), and the
recorded background-model norm. -/
structure BgDataset (n : ℕ) where
  counts : Fin n → ℚ
  background : Fin n → ℚ
  mask_fit : Fin n → Bool
  exclusion : Fin n → Bool
  norm : ℚ

/-- The bins usable for the background fit: inside the current fit mask and
outside the exclusion regions. -/
def fovValidBins {n : ℕ} (ds : BgDataset n) : List (Fin n) :=
  (List.finRange n).filter fun i => ds.exclusion i && ds.mask_fit i

/-- Modelled from the spec: the norm fitted by the restricted single-
parameter likelihood fit — the maximum-likelihood scale of the background
model over the valid bins (total observed counts over total predicted
background there). -/
def fovFitNorm {n : ℕ} (ds : BgDataset n) : ℚ :=
  ((fovValidBins ds).map ds.counts).sum / ((fovValidBins ds).map ds.background).sum

/-- Modelled from the spec: `BackgroundNormalizer.fit` (gammapy
`FoVBackgroundMaker.run` with method `"fit"`, absent from the repository
sources — only its caller in `analysis_2.ipynb` is present): if no valid
bin remains after restricting to the exclusion mask and the fit mask, the
operation fails with `insufficientData` and returns the dataset untouched;
otherwise it rescales the stored background array by the fitted norm and
records the fitted value. -/
def fovBackgroundRun {n : ℕ} (ds : BgDataset n) :
    BgDataset n × Option MakerError :=
  if (fovValidBins ds).isEmpty then (ds, some .insufficientData)
  else
    (({ ds with
        background := fun i => fovFitNorm ds * ds.background i
        norm := fovFitNorm ds }), none)

/-- C6: the background normalizer is atomic on failure — when every bin is
masked or excluded it fails with the insufficient-data error and leaves
the dataset (in particular its background array) unmodified; on success it
rescales the stored background array by the fitted norm, records the
fitted value, and touches nothing else. -/
theorem fov_background_atomic {n : ℕ} (ds : BgDataset n) :
    ((fovValidBins ds).isEmpty = true →
        fovBackgroundRun ds = (ds, some MakerError.insufficientData))
      ∧ ((fovValidBins ds).isEmpty = false →
        (fovBackgroundRun ds).2 = none
          ∧ (fovBackgroundRun ds).1.background
              = (fun i => fovFitNorm ds * ds.background i)
          ∧ (fovBackgroundRun ds).1.norm = fovFitNorm ds
          ∧ (fovBackgroundRun ds).1.counts = ds.counts
          ∧ (fovBackgroundRun ds).1.mask_fit = ds.mask_fit) := by
  constructor
  · intro h
    simp [fovBackgroundRun, h]
  · intro h
    simp [fovBackgroundRun, h]

/-- Example dataset where one bin remains valid for the background fit. -/
def bgDsOk : BgDataset 2 :=
  { counts := fun _ => 4
    background := fun _ => 2
    mask_fit := fun _ => true
    exclusion := fun i => i = 0
    norm := 1 }

/-- Example dataset where every bin is masked, so the background fit has no
data. -/
def bgDsEmpty : BgDataset 2 :=
  { counts := fun _ => 4
    background := fun _ => 2
    mask_fit := fun _ => false
    exclusion := fun i => i = 0
    norm := 1 }

/-- Witness for C6 at concrete datasets: the all-masked dataset fails with
the insufficient-data error and is returned untouched, and the dataset
with a valid bin succeeds with its background rescaled by the fitted
norm. -/
theorem fov_background_atomic_witness :
    fovBackgroundRun bgDsEmpty = (bgDsEmpty, some MakerError.insufficientData)
      ∧ ((fovBackgroundRun bgDsOk).2 = none
          ∧ (fovBackgroundRun bgDsOk).1.background
              = (fun i => fovFitNorm bgDsOk * bgDsOk.background i)
          ∧ (fovBackgroundRun bgDsOk).1.norm = fovFitNorm bgDsOk
          ∧ (fovBackgroundRun bgDsOk).1.counts = bgDsOk.counts
          ∧ (fovBackgroundRun bgDsOk).1.mask_fit = bgDsOk.mask_fit) :=
  ⟨(fov_background_atomic bgDsEmpty).1 (by decide),
    (fov_background_atomic bgDsOk).2 (by decide)⟩

/- ## Statistic profiles -/

/-- A profile-scan problem: the total statistic as a function of the scanned
parameter's value and of the remaining free parameters, together with the
candidate settings of those remaining parameters examined by each
re-minimization. -/
structure ProfileFit where
  stat : ℚ → List ℚ → ℚ
  others : List (List ℚ)

/-- Modelled from the spec: one scan point of
`FitEngine.stat_profile` (gammapy `Fit.stat_profile`, absent from the
repository sources): the scanned parameter is held fixed at `v` and the
total statistic is re-minimized over all other free parameters; `none`
reports a failed scan point. -/
def reoptimized (pf : ProfileFit) (v : ℚ) : Option ℚ :=
  listMin (pf.others.map (pf.stat v))

/-- Modelled from the spec: `FitEngine.stat_profile` — the sequence of
(scanned value, re-minimized statistic) pairs. -/
def statProfile (pf : ProfileFit) (scan : List ℚ) : List (ℚ × Option ℚ) :=
  scan.map fun v => (v, reoptimized pf v)

/-- The unconstrained minimum found by `run()`: the smallest statistic over
every scanned value of the parameter and every setting of the others. -/
def runGlobalMin (pf : ProfileFit) (scan : List ℚ) : Option ℚ :=
  listMin (scan.flatMap fun v => pf.others.map (pf.stat v))

/-- C8: `stat_profile` holds the scanned parameter fixed and re-minimizes
over the other free parameters, so at the best-fit value of the scanned
parameter the profiled statistic equals the unconstrained minimum
statistic returned by `run()`. -/
theorem profile_consistent (pf : ProfileFit) (scan : List ℚ) (v : ℚ)
    (q : List ℚ) (hv : v ∈ scan) (hq : q ∈ pf.others)
    (hmin : ∀ v' ∈ scan, ∀ q' ∈ pf.others, pf.stat v q ≤ pf.stat v' q') :
    reoptimized pf v = some (pf.stat v q)
      ∧ runGlobalMin pf scan = some (pf.stat v q) := by
  have hmem1 : pf.stat v q ∈ pf.others.map (pf.stat v) :=
    List.mem_map_of_mem (pf.stat v) hq
  constructor
  · cases h : listMin (pf.others.map (pf.stat v)) with
    | none =>
      rw [listMin_eq_none] at h
      rw [h] at hmem1
      cases hmem1
    | some m =>
      have hle : m ≤ pf.stat v q := listMin_le h hmem1
      obtain ⟨q', hq', hq'eq⟩ := List.mem_map.mp (listMin_mem h)
      have hge : pf.stat v q ≤ m := hq'eq ▸ hmin v hv q' hq'
      show listMin (pf.others.map (pf.stat v)) = some (pf.stat v q)
      rw [h, le_antisymm hle hge]
  · have hmemb : pf.stat v q ∈ scan.flatMap fun v' => pf.others.map (pf.stat v') :=
      List.mem_flatMap.mpr ⟨v, hv, hmem1⟩
    cases h : listMin (scan.flatMap fun v' => pf.others.map (pf.stat v')) with
    | none =>
      rw [listMin_eq_none] at h
      rw [h] at hmemb
      cases hmemb
    | some m =>
      have hle : m ≤ pf.stat v q := listMin_le h hmemb
      obtain ⟨v', hv', hm⟩ := List.mem_flatMap.mp (listMin_mem h)
      obtain ⟨q', hq', hq'eq⟩ := List.mem_map.mp hm
      have hge : pf.stat v q ≤ m := hq'eq ▸ hmin v' hv' q' hq'
      show listMin (scan.flatMap fun w => pf.others.map (pf.stat w)) = some (pf.stat v q)
      rw [h, le_antisymm hle hge]

/-- Example profile problem: a separable quadratic statistic, minimal at
scanned value 1 with the other parameter at 0. -/
def profileFitEx : ProfileFit :=
  { stat := fun v q => (v - 1) ^ 2 + q.headD 0 ^ 2
    others := [[0], [2]] }

/-- Example scan values for the profile. -/
def scanEx : List ℚ := [0, 1]

theorem profileFitEx_min :
    ∀ v' ∈ scanEx, ∀ q' ∈ profileFitEx.others,
      profileFitEx.stat 1 [0] ≤ profileFitEx.stat v' q' := by
  intro v' hv' q' hq'
  fin_cases hv' <;> fin_cases hq' <;> norm_num [profileFitEx, scanEx]

/-- Witness for C8 at the concrete quadratic profile problem. -/
theorem profile_consistent_witness :
    reoptimized profileFitEx 1 = some (profileFitEx.stat 1 [0])
      ∧ runGlobalMin profileFitEx scanEx = some (profileFitEx.stat 1 [0]) :=
  profile_consistent profileFitEx scanEx 1 [0] (by decide) (by decide)
    profileFitEx_min

/- ## Parameter write-back and sequential runs (shared model state) -/

/-- The state of the shared model parameter objects: current values and
errors, visible through every alias of the model. -/
structure ModelState where
  values : List ℚ
  errors : List (Option ℚ)

/-- A fit session: the joint objective, the backend-specific trial parameter
vectors each search proposes, and the backend-specific error estimation at
the found minimum. -/
structure FitSession where
  objective : List ℚ → ℚ
  trials : Backend → List (List ℚ)
  errorsAt : Backend → List ℚ → List (Option ℚ)

/-- Greedy minimization of `f` over the trial points, starting from (and
never doing worse than) the starting vector `start`. -/
def argminFrom (f : List ℚ → ℚ) (start : List ℚ)
    (trials : List (List ℚ)) : List ℚ :=
  trials.foldl (fun best t => if f t < f best then t else best) start

/-- Outcome of one `run()` call: the fit result (fitted values and errors)
and the model parameter state after the write-back. -/
structure FitOutcome where
  result_values : List ℚ
  result_errors : List (Option ℚ)
  state : ModelState

/-- Modelled from the spec: `FitEngine.run` with shared-parameter
write-back (gammapy `Fit.run`, absent from the repository sources): the
minimization starts from the current values of the shared model parameter
objects, and the fitted values and errors are written back into those
objects — the returned `state` — as the single allowed persistent side
effect. -/
def runWriteBack (S : FitSession) (m : ModelState) (b : Backend) : FitOutcome :=
  let best := argminFrom S.objective m.values (S.trials b)
  { result_values := best
    result_errors := S.errorsAt b best
    state := { values := best, errors := S.errorsAt b best } }

theorem foldl_argmin_le (f : List ℚ → ℚ) :
    ∀ (trials : List (List ℚ)) (start : List ℚ),
      f (trials.foldl (fun best t => if f t < f best then t else best) start)
        ≤ f start := by
  intro trials
  induction trials with
  | nil =>
    intro start
    exact le_refl _
  | cons t ts ih =>
    intro start
    simp only [List.foldl]
    by_cases h : f t < f start
    · rw [if_pos h]
      exact le_trans (ih t) (le_of_lt h)
    · rw [if_neg h]
      exact ih start

theorem argminFrom_le (f : List ℚ → ℚ) (start : List ℚ)
    (trials : List (List ℚ)) : f (argminFrom f start trials) ≤ f start :=
  foldl_argmin_le f trials start

/-- C9: each `run()` writes the fitted values and errors back into the
shared model parameter state, so reading the model after the fit observes
the fitted results; a subsequent `run()` on the same session starts its
minimization from the previous call's best-fit values — so its objective
value never exceeds the first run's — not from the user's initial
values. -/
theorem run_writes_back_and_warm_starts (S : FitSession) (m : ModelState)
    (b1 b2 : Backend) :
    ((runWriteBack S m b1).state.values = (runWriteBack S m b1).result_values
        ∧ (runWriteBack S m b1).state.errors = (runWriteBack S m b1).result_errors)
      ∧ (runWriteBack S (runWriteBack S m b1).state b2).result_values
          = argminFrom S.objective (runWriteBack S m b1).result_values
              (S.trials b2)
      ∧ S.objective (runWriteBack S (runWriteBack S m b1).state b2).result_values
          ≤ S.objective (runWriteBack S m b1).result_values := by
  refine ⟨⟨rfl, rfl⟩, rfl, ?_⟩
  exact argminFrom_le S.objective
    (runWriteBack S m b1).result_values (S.trials b2)

/- ## Profile and contour output pairing -/

/-- The mapping returned by `stat_profile`: the scanned values and the
re-minimized statistic sequence. -/
structure ProfileResult where
  values : List ℚ
  stat : List (Option ℚ)

/-- Modelled from the spec: the structure `fit.stat_profile` returns, with
one statistic entry per scanned value. -/
def statProfileResult (pf : ProfileFit) (scan : List ℚ) : ProfileResult :=
  { values := (statProfile pf scan).map Prod.fst
    stat := (statProfile pf scan).map Prod.snd }

/-- A contour-trace problem: the statistic increase over the minimum as a
function of the offset from the best-fit point, the confidence level, the
search directions indexed by vertex number, and the step-doubling
budget. -/
structure ContourSetup where
  statIncrease : ℚ × ℚ → ℚ
  sigma : ℚ
  dirs : ℕ → ℚ × ℚ
  maxDoublings : ℕ

/-- Scale a parameter-plane offset. -/
def scalePoint (t : ℚ) (p : ℚ × ℚ) : ℚ × ℚ := (t * p.1, t * p.2)

/-- Modelled from the spec: one directional bracketing search of the
contour tracer — step-doubling along direction `k` until the statistic
increase reaches `sigma²`; when the budget is exhausted without
bracketing, the vertex is omitted (`none`). -/
def bracketVertex (cs : ContourSetup) (k : ℕ) : Option (ℚ × ℚ) :=
  ((List.range (cs.maxDoublings + 1)).map
      fun j => scalePoint (2 ^ j) (cs.dirs k)).find?
    fun p => decide (cs.sigma ^ 2 ≤ cs.statIncrease p)

/-- The mapping returned by `minos_contour`: the vertex coordinate
arrays. -/
structure ContourResult where
  x : List ℚ
  y : List ℚ

/-- Modelled from the spec: `FitEngine.contour` (gammapy
`Fit.minos_contour`, absent from the repository sources): traces
`numpoints` directions, omits vertices whose bracketing search failed, and
returns the ordered vertex coordinates. -/
def minosContour (cs : ContourSetup) (numpoints : ℕ) : ContourResult :=
  let verts := (List.range numpoints).filterMap (bracketVertex cs)
  { x := verts.map Prod.fst, y := verts.map Prod.snd }

/-- C10: profile and contour outputs pair coordinates index by index —
`stat_profile` returns one statistic per scanned value (its `values` list
is the scan itself and its `stat` list has the same length), and
`minos_contour` returns `x` and `y` arrays of equal length, so each index
forms one vertex. -/
theorem profile_contour_paired (pf : ProfileFit) (scan : List ℚ)
    (cs : ContourSetup) (numpoints : ℕ) :
    (statProfileResult pf scan).values = scan
      ∧ (statProfileResult pf scan).stat.length = scan.length
      ∧ (minosContour cs numpoints).x.length
          = (minosContour cs numpoints).y.length := by
  refine ⟨?_, ?_, ?_⟩
  · simp only [statProfileResult, statProfile, List.map_map]
    exact List.map_id scan
  · simp [statProfileResult, statProfile]
  · simp [minosContour]
